import Mathlib

/-!
Verification of the hn-ai-scraper pipeline: hn_scraper/scraper.py, processor.py, fetcher.py, models.py.

Shallow embedding conventions:
* Python dict values flowing out of json.loads are modelled by the inductive Json
  below; JSON numbers keep their source lexeme (the claims never compute with
  the float value, so no floating point model is needed).
* json.loads is embedded as json_loads: a fuel-based recursive-descent parser for
  the RFC 8259 grammar (strict: a single document, optionally surrounded by
  whitespace; unescaped control characters rejected; no leading zeros).
  Python-specific extensions (NaN/Infinity literals, surrogate-pair joining) are
  outside the inputs any theorem touches and are not modelled.
* Python str.strip() is pyStrip, str.lower() is strLower (ASCII case folding,
  matching the keywords and keys the program compares), slicing s[:n] is pyTake,
  "needle in haystack" is containsSub.
* Network and database effects are oracle parameters: each external call site
  receives its outcome (success value or failure) as an explicit argument, and a
  raised exception at a call site is an explicit Except.error / Bool flag.
* Python None in an Optional slot is Option.none; a function whose Python body
  can be observed as "a dict or None" is typed Option (...) even when, as in
  classify_and_summarize, the source happens to return a dict on every path.
-/

namespace HnScraper

/-! ## JSON values (the shape of json.loads output) -/

/-- A decoded JSON value. Numbers keep their decimal lexeme exactly as written. -/
inductive Json where
  | null : Json
  | bool : Bool → Json
  | num : String → Json
  | str : String → Json
  | arr : List Json → Json
  | obj : List (String × Json) → Json
deriving Repr

/-! ## Small string utilities shared by all components -/

/-- Characters Python's str.strip() removes (ASCII whitespace incl. \x0b, \x0c). -/
def isPyWs (c : Char) : Bool :=
  c == ' ' || c == '\t' || c == '\n' || c == '\r' || c == Char.ofNat 11 || c == Char.ofNat 12

/-- Python str.strip(): drop leading and trailing whitespace. -/
def pyStrip (s : String) : String :=
  String.mk (((s.data.dropWhile isPyWs).reverse.dropWhile isPyWs).reverse)

/-- Python s[:n]: the first n characters. -/
def pyTake (s : String) (n : Nat) : String :=
  String.mk (s.data.take n)

/-- Python str.lower() (ASCII case folding). -/
def strLower (s : String) : String :=
  String.mk (s.data.map Char.toLower)

/-- Does the needle occur at the head of the haystack? -/
def startsL : List Char → List Char → Bool
  | [], _ => true
  | _ :: _, [] => false
  | n :: ns, h :: hs => n == h && startsL ns hs

/-- Does the needle occur anywhere in the haystack (Python "needle in hay")? -/
def subOcc : List Char → List Char → Bool
  | n, [] => n.isEmpty
  | n, c :: hs => startsL n (c :: hs) || subOcc n hs

/-- Python "needle in hay" on strings. -/
def containsSub (hay needle : String) : Bool :=
  subOcc needle.data hay.data

/-- Is the character a present in the list? -/
def hasChar : List Char → Char → Bool
  | [], _ => false
  | c :: rest, a => c == a || hasChar rest a

/-! ## json.loads embedding -/

/-- JSON whitespace (RFC 8259: space, tab, LF, CR). -/
def isJsonWs (c : Char) : Bool :=
  c == ' ' || c == '\t' || c == '\n' || c == '\r'

/-- Skip leading JSON whitespace. -/
def skipWs (cs : List Char) : List Char :=
  cs.dropWhile isJsonWs

/-- Value of one hex digit, if it is one. -/
def hexVal (c : Char) : Option Nat :=
  if '0' ≤ c ∧ c ≤ '9' then some (c.toNat - '0'.toNat)
  else if 'a' ≤ c ∧ c ≤ 'f' then some (c.toNat - 'a'.toNat + 10)
  else if 'A' ≤ c ∧ c ≤ 'F' then some (c.toNat - 'A'.toNat + 10)
  else none

/-- Simple JSON string escapes. -/
def escChar (c : Char) : Option Char :=
  if c = '"' then some '"'
  else if c = '\\' then some '\\'
  else if c = '/' then some '/'
  else if c = 'n' then some '\n'
  else if c = 't' then some '\t'
  else if c = 'r' then some '\r'
  else if c = 'b' then some (Char.ofNat 8)
  else if c = 'f' then some (Char.ofNat 12)
  else none

/-- Body of a JSON string after the opening quote; returns content and the rest. -/
def strBody : List Char → List Char → Option (List Char × List Char)
  | acc, '"' :: rest => some (acc.reverse, rest)
  | acc, '\\' :: 'u' :: h1 :: h2 :: h3 :: h4 :: rest =>
    match hexVal h1, hexVal h2, hexVal h3, hexVal h4 with
    | some a, some b, some c, some d =>
      strBody (Char.ofNat (((a * 16 + b) * 16 + c) * 16 + d) :: acc) rest
    | _, _, _, _ => none
  | acc, '\\' :: c :: rest =>
    match escChar c with
    | some c2 => strBody (c2 :: acc) rest
    | none => none
  | acc, c :: rest => if c.toNat < 32 then none else strBody (c :: acc) rest
  | _, [] => none

/-- Exponent digits of a number lexeme. -/
def numExpDigits (lx e : List Char) (cs : List Char) : Option (String × List Char) :=
  let (sg, cs1) := match cs with
    | '+' :: r => (['+'], r)
    | '-' :: r => (['-'], r)
    | _ => (([] : List Char), cs)
  let ds := cs1.takeWhile Char.isDigit
  let cs2 := cs1.dropWhile Char.isDigit
  if ds.isEmpty then none else some (String.mk (lx ++ e ++ sg ++ ds), cs2)

/-- Optional exponent part of a number lexeme. -/
def numExpPart (lx : List Char) (cs : List Char) : Option (String × List Char) :=
  match cs with
  | 'e' :: r => numExpDigits lx ['e'] r
  | 'E' :: r => numExpDigits lx ['E'] r
  | _ => some (String.mk lx, cs)

/-- A JSON number lexeme (strict grammar: no leading zeros, '.'/exp need digits). -/
def numLexeme (cs : List Char) : Option (String × List Char) :=
  let (sgn, cs1) := match cs with
    | '-' :: r => ((['-'] : List Char), r)
    | _ => (([] : List Char), cs)
  let ip := cs1.takeWhile Char.isDigit
  let cs2 := cs1.dropWhile Char.isDigit
  if ip.isEmpty then none
  else if 1 < ip.length ∧ ip.headD ' ' = '0' then none
  else
    match cs2 with
    | '.' :: r =>
      let fd := r.takeWhile Char.isDigit
      let r2 := r.dropWhile Char.isDigit
      if fd.isEmpty then none
      else numExpPart (sgn ++ ip ++ '.' :: fd) r2
    | _ => numExpPart (sgn ++ ip) cs2

mutual

/-- Parse one JSON value (fuel-based; fuel only limits nesting/sequence length). -/
def parseJsonV : Nat → List Char → Option (Json × List Char)
  | 0, _ => none
  | Nat.succ f, cs =>
    match skipWs cs with
    | 'n' :: 'u' :: 'l' :: 'l' :: rest => some (Json.null, rest)
    | 't' :: 'r' :: 'u' :: 'e' :: rest => some (Json.bool true, rest)
    | 'f' :: 'a' :: 'l' :: 's' :: 'e' :: rest => some (Json.bool false, rest)
    | '"' :: rest =>
      match strBody [] rest with
      | some (s, r) => some (Json.str (String.mk s), r)
      | none => none
    | '[' :: rest =>
      (match skipWs rest with
       | ']' :: r2 => some (Json.arr [], r2)
       | _ =>
         match parseJsonElems f rest with
         | some (vs, r) => some (Json.arr vs, r)
         | none => none)
    | '\x7b' :: rest =>
      (match skipWs rest with
       | '\x7d' :: r2 => some (Json.obj [], r2)
       | _ =>
         match parseJsonMems f rest with
         | some (kvs, r) => some (Json.obj kvs, r)
         | none => none)
    | c :: r =>
      if c = '-' ∨ c.isDigit then
        match numLexeme (c :: r) with
        | some (s, r2) => some (Json.num s, r2)
        | none => none
      else none
    | [] => none

/-- Parse the elements of a non-empty JSON array (after the opening bracket). -/
def parseJsonElems : Nat → List Char → Option (List Json × List Char)
  | 0, _ => none
  | Nat.succ f, cs =>
    match parseJsonV f cs with
    | none => none
    | some (v, r) =>
      match skipWs r with
      | ',' :: r2 =>
        (match parseJsonElems f r2 with
         | some (vs, r3) => some (v :: vs, r3)
         | none => none)
      | ']' :: r2 => some ([v], r2)
      | _ => none

/-- Parse the members of a non-empty JSON object (after the opening brace). -/
def parseJsonMems : Nat → List Char → Option (List (String × Json) × List Char)
  | 0, _ => none
  | Nat.succ f, cs =>
    match skipWs cs with
    | '"' :: rest =>
      (match strBody [] rest with
       | none => none
       | some (k, r) =>
         match skipWs r with
         | ':' :: r2 =>
           (match parseJsonV f r2 with
            | none => none
            | some (v, r3) =>
              match skipWs r3 with
              | ',' :: r4 =>
                (match parseJsonMems f r4 with
                 | some (kvs, r5) => some ((String.mk k, v) :: kvs, r5)
                 | none => none)
              | '\x7d' :: r4 => some ([(String.mk k, v)], r4)
              | _ => none)
         | _ => none)
    | _ => none

end

/-- json.loads: one JSON document, optionally surrounded by whitespace. -/
def json_loads (s : String) : Option Json :=
  match parseJsonV (4 * s.length + 16) s.data with
  | some (v, rest) => if (skipWs rest).isEmpty then some v else none
  | none => none

/-! ## Classifier (processor.py, classify_and_summarize) -/

/-- Suffix of l up to and including its last closing brace. -/
def upToLastClose (l : List Char) : List Char :=
  (l.reverse.dropWhile (fun c => c != '\x7d')).reverse

/-- The re.search pattern from processor.py applied with DOTALL: the leftmost
position holding an opening brace that is followed by some closing brace starts
the match, and the greedy dot-star extends it to the last closing brace. -/
def braceMatch : List Char → Option (List Char)
  | [] => none
  | c :: rest =>
    if c = '\x7b' ∧ hasChar rest '\x7d' then some ('\x7b' :: upToLastClose rest)
    else braceMatch rest

/-- Python dict lookup on decoded JSON members (duplicate keys: the last wins,
as in the dict json.loads builds). -/
def jget : List (String × Json) → String → Option Json
  | [], _ => none
  | kv :: rest, k =>
    match jget rest k with
    | some v => some v
    | none => if kv.1 = k then some kv.2 else none

/-- Is the value a JSON string? -/
def Json.isStrVal : Json → Bool
  | Json.str _ => true
  | _ => false

/-- The payload of a JSON string value. -/
def Json.strVal : Json → String
  | Json.str s => s
  | _ => ""

/-- The dict both exception handlers of classify_and_summarize return. -/
def defaultVerdict : List (String × Json) :=
  [("is_related", Json.bool false), ("category", Json.null),
   ("subcategory", Json.null), ("summary", Json.str ""),
   ("tags", Json.str ""), ("relevance", Json.num "0.0")]

/-- The final six-key dict classify_and_summarize builds from a decoded object,
given the (already normalized) tags value. -/
def buildVerdict (kvs : List (String × Json)) (tagsVal : Json) : List (String × Json) :=
  [("is_related", (jget kvs "is_related").getD (Json.bool false)),
   ("category", (jget kvs "category").getD Json.null),
   ("subcategory", (jget kvs "subcategory").getD Json.null),
   ("summary", (jget kvs "summary").getD (Json.str "")),
   ("tags", tagsVal),
   ("relevance", (jget kvs "relevance").getD (Json.num "0.0"))]

/-- Normalization of the tags entry: a list is comma-joined (a list with a
non-string element makes str.join raise TypeError, modelled as none, which the
generic exception handler turns into the default dict); a missing key yields
the empty-string default of the final result.get; any other value passes through. -/
def tagsNormalize (kvs : List (String × Json)) : Option Json :=
  match jget kvs "tags" with
  | some (Json.arr xs) =>
    if xs.all Json.isStrVal then
      some (Json.str (String.intercalate "," (xs.map Json.strVal)))
    else none
  | some v => some v
  | none => some (Json.str "")

/-- The text classify_and_summarize hands to json.loads: the stripped response,
replaced by the regex match when the brace pattern finds one. -/
def classifyContent (raw : String) : String :=
  let c := pyStrip raw
  match braceMatch c.data with
  | some m => String.mk m
  | none => c

/-- classify_and_summarize from processor.py over the outcome of the upstream
chat-completion call: none models a raised upstream exception, some raw the
returned message content. The Option result models the Python return slot
(a dict or None); every path of the source returns a dict, never None. -/
def classify_and_summarize (o : Option String) : Option (List (String × Json)) :=
  match o with
  | none => some defaultVerdict
  | some raw =>
    match json_loads (classifyContent raw) with
    | some (Json.obj kvs) =>
      (match tagsNormalize kvs with
       | some tv => some (buildVerdict kvs tv)
       | none => some defaultVerdict)
    | _ => some defaultVerdict

/-- Spec-side definition, from the words of the spec only (for the refinement
comparison of claim C2): the first well-formed JSON object in the text, i.e.
the parse at the earliest position where a JSON object parse succeeds. -/
def specFirstJsonObjAux : List Char → Option (List Char)
  | [] => none
  | c :: rest =>
    if c = '\x7b' then
      match parseJsonV (4 * (rest.length + 1) + 16) (c :: rest) with
      | some (Json.obj _, rem) => some ((c :: rest).take ((c :: rest).length - rem.length))
      | _ => specFirstJsonObjAux rest
    else specFirstJsonObjAux rest

/-- Spec-side wrapper of specFirstJsonObjAux on strings. -/
def specFirstJsonObject (s : String) : Option String :=
  (specFirstJsonObjAux s.data).map String.mk

/-! ## Content extractor (fetcher.py, fetch_article_text) -/

/-- The newspaper3k attempt: accept article.text only when the library is
importable, the call did not raise, the text is truthy and its stripped length
exceeds 100 characters. The accepted value is returned unstripped. -/
def npAccept (avail : Bool) (primary : Except Unit String) : Option String :=
  if avail then
    match primary with
    | Except.ok t => if t ≠ "" ∧ 100 < (pyStrip t).length then some t else none
    | Except.error _ => none
  else none

/-- The requests+BeautifulSoup fallback: the oracle yields the paragraph texts
(or the raised request/parse error); they are newline-joined and accepted,
stripped, only above the same 100-character floor. -/
def bsFallback (fb : Except Unit (List String)) : Option String :=
  match fb with
  | Except.error _ => none
  | Except.ok ps =>
    let text := String.intercalate "\n" ps
    if text ≠ "" ∧ 100 < (pyStrip text).length then some (pyStrip text) else none

/-- fetch_article_text from fetcher.py: empty url short-circuits to none, then
the newspaper3k attempt, then the BeautifulSoup fallback. Total: every failure
degrades to none. -/
def fetch_article_text (url : String) (avail : Bool)
    (primary : Except Unit String) (fb : Except Unit (List String)) : Option String :=
  if url = "" then none
  else
    match npAccept avail primary with
    | some t => some t
    | none => bsFallback fb

/-! ## Orchestrator (scraper.py, run_once) -/

/-- matches_keywords from scraper.py: an empty configured list matches
everything; otherwise some keyword must occur in the lowercased
space-concatenation of title and url. -/
def matches_keywords (kws : List String) (title : String) (url : Option String) : Bool :=
  if kws.isEmpty then true
  else kws.any (fun kw => containsSub (strLower (title ++ " " ++ url.getD "")) kw)

/-- The keyword pre-filter condition of run_once: skip when the item does not
match the keywords and its score is below 50. -/
def keywordSkips (kws : List String) (title : String) (url : Option String) (score : Int) : Bool :=
  !matches_keywords kws title url && decide (score < 50)

/-- Spec-side definition, from the words of claim C5 only (for the refinement
comparison): skip exactly when the keyword set is non-empty, the score is below
50, and neither the title nor the URL contains, case-insensitively, any
configured keyword. -/
def specKeywordSkips (kws : List String) (title : String) (url : Option String)
    (score : Int) : Bool :=
  !kws.isEmpty && decide (score < 50) &&
    kws.all (fun kw =>
      !containsSub (strLower title) (strLower kw) &&
        !containsSub (strLower (url.getD "")) (strLower kw))

/-- The fields of the HN item detail payload that run_once reads
(Python keys: type, score, title, url, by, time; absent key = none). -/
structure ItemDict where
  itemType : Option String
  score : Option Int
  title : Option String
  url : Option String
  author : Option String
  time : Option Int
deriving Repr

/-- A row of the stories table as run_once constructs it (models.Story; the
classification columns hold the dict values run_once copies out of the
verdict; created_at, a wall-clock default, is not modelled). -/
structure StoredItem where
  hn_id : Nat
  title : String
  url : Option String
  text : Option String
  score : Int
  author : Option String
  time : Option Int
  category : Json
  subcategory : Json
  summary : Json
  tags : Json
  relevance : Json
  is_processed : Bool
deriving Repr

/-- The existence check db.query(Story).filter(Story.hn_id == id).first(). -/
def storeHas (s : List StoredItem) (id : Nat) : Bool :=
  s.any (fun it => it.hn_id == id)

/-- Module-level configuration of scraper.py (SCRAPE_MIN_SCORE, KEYWORDS). -/
structure RunCfg where
  minScore : Int
  keywords : List String

/-- The oracle environment of one run: outcomes of every external call.
detail is the fetch_item result (fetch_item catches internally, so it never
raises); primary/fallback feed fetch_article_text per url; classifyResp is the
upstream chat-completion outcome per story id; existsRaises/insertRaises inject
database exceptions at the two db call sites (the outer try catches the first,
the inner try rolls back and swallows the second). -/
structure Env where
  detail : Nat → Option ItemDict
  npAvailable : Bool
  primary : String → Except Unit String
  fallback : String → Except Unit (List String)
  classifyResp : Nat → Option String
  existsRaises : Nat → Bool
  insertRaises : Nat → Bool

/-- The truncation step of run_once: text longer than MAX_TEXT_LENGTH = 20000
is cut to its first 20000 characters. -/
def truncText : Option String → Option String
  | none => none
  | some t => if 20000 < t.length then some (pyTake t 20000) else some t

/-- The Story(...) constructor call of run_once. -/
def mkStored (id : Nat) (item : ItemDict) (text : Option String) (score : Int)
    (verdict : List (String × Json)) : StoredItem :=
  { hn_id := id
    title := item.title.getD ""
    url := item.url
    text := text
    score := score
    author := item.author
    time := item.time
    category := (jget verdict "category").getD Json.null
    subcategory := (jget verdict "subcategory").getD Json.null
    summary := (jget verdict "summary").getD Json.null
    tags := (jget verdict "tags").getD Json.null
    relevance := (jget verdict "relevance").getD Json.null
    is_processed := true }

/-- Python truthiness of a decoded JSON value (applied to is_related). A number
is truthy when a non-zero digit occurs in its mantissa. -/
def jtruthy : Json → Bool
  | Json.null => false
  | Json.bool b => b
  | Json.num s => (s.data.takeWhile (fun c => c != 'e' && c != 'E')).any
      (fun c => '1' ≤ c && c ≤ '9')
  | Json.str s => s != ""
  | Json.arr xs => !xs.isEmpty
  | Json.obj kvs => !kvs.isEmpty

/-- The article text run_once fetches for an item: absent when the item has no
url (a falsy url also yields absent, since fetch_article_text rejects the empty
string exactly as the source's truthiness test skips it). -/
def articleFor (env : Env) (item : ItemDict) : Option String :=
  match item.url with
  | none => none
  | some u => fetch_article_text u env.npAvailable (env.primary u) (env.fallback u)

/-- The body of run_once's per-story loop iteration: returns the store after
this identifier together with this iteration's saved_count and processed_count
increments. Every skip (continue) and every caught exception leaves the store
unchanged; only a successful insert appends. -/
def stepStory (cfg : RunCfg) (env : Env) (store : List StoredItem) (id : Nat) :
    List StoredItem × Nat × Nat :=
  match env.detail id with
  | none => (store, 0, 0)
  | some item =>
    if item.itemType ≠ some "story" then (store, 0, 0)
    else if item.score.getD 0 < cfg.minScore then (store, 0, 0)
    else if env.existsRaises id then (store, 0, 0)
    else if storeHas store id then (store, 0, 0)
    else if matches_keywords cfg.keywords (item.title.getD "") item.url = false ∧
        item.score.getD 0 < 50 then (store, 0, 0)
    else
      match classify_and_summarize (env.classifyResp id) with
      | none => (store, 0, 0)
      | some verdict =>
        if verdict.isEmpty then (store, 0, 0)
        else if jtruthy ((jget verdict "is_related").getD (Json.bool false)) = false then
          (store, 0, 0)
        else if env.insertRaises id then (store, 0, 1)
        else
          (store ++ [mkStored id item (truncText (articleFor env item))
            (item.score.getD 0) verdict], 1, 1)

/-- The per-story loop of run_once over the fetched identifiers, accumulating
the store and the saved/processed counters. -/
def runLoop (cfg : RunCfg) (env : Env) : List Nat → List StoredItem → List StoredItem × Nat × Nat
  | [], store => (store, 0, 0)
  | id :: rest, store =>
    ((runLoop cfg env rest (stepStory cfg env store id).1).1,
     (stepStory cfg env store id).2.1 +
       (runLoop cfg env rest (stepStory cfg env store id).1).2.1,
     (stepStory cfg env store id).2.2 +
       (runLoop cfg env rest (stepStory cfg env store id).1).2.2)

/-- run_once: a failed top-stories fetch aborts before the loop; otherwise the
per-story loop runs over the returned identifiers. -/
def run_once (cfg : RunCfg) (env : Env) (feed : Except Unit (List Nat))
    (store : List StoredItem) : List StoredItem × Nat × Nat :=
  match feed with
  | Except.error _ => (store, 0, 0)
  | Except.ok ids => runLoop cfg env ids store

/-! ## Concrete example data used by counterexamples and witnesses -/

/-- A story item with a url, used by the C8 counterexample. -/
def exItem8 : ItemDict :=
  { itemType := some "story", score := some 42, title := some "T",
    url := some "http://a", author := none, time := none }

/-- A fully-populated upstream classification response. -/
def exResp8 : String :=
  "\x7b\"is_related\": true, \"category\": \"AI\", \"subcategory\": null, \"summary\": \"s\", \"tags\": [\"x\"], \"relevance\": 0.9\x7d"

/-- Environment for the C8 counterexample: both extraction strategies raise,
classification succeeds with is_related true, the database never raises. -/
def exEnv8 : Env :=
  { detail := fun i => if i = 1 then some exItem8 else none
    npAvailable := true
    primary := fun _ => Except.error ()
    fallback := fun _ => Except.error ()
    classifyResp := fun _ => some exResp8
    existsRaises := fun _ => false
    insertRaises := fun _ => false }

/-- The default configuration of scraper.py (SCRAPE_MIN_SCORE 10, no keywords). -/
def exCfg : RunCfg := { minScore := 10, keywords := [] }

/-- The row the C8 counterexample run stores. -/
def exStored8 : StoredItem :=
  { hn_id := 1, title := "T", url := some "http://a", text := none, score := 42,
    author := none, time := none, category := Json.str "AI",
    subcategory := Json.null, summary := Json.str "s", tags := Json.str "x",
    relevance := Json.num "0.9", is_processed := true }

/-- An environment whose feed details and classification all fail. -/
def exEnvNone : Env :=
  { detail := fun _ => none
    npAvailable := false
    primary := fun _ => Except.error ()
    fallback := fun _ => Except.error ()
    classifyResp := fun _ => none
    existsRaises := fun _ => false
    insertRaises := fun _ => false }

/-- A plain stored row used by run-level witnesses. -/
def exStoredPlain : StoredItem :=
  { hn_id := 1, title := "t", url := none, text := none, score := 5,
    author := none, time := none, category := Json.null, subcategory := Json.null,
    summary := Json.null, tags := Json.null, relevance := Json.null,
    is_processed := true }

/-- A job-typed item (skipped by the kind filter). -/
def exItemJob : ItemDict :=
  { itemType := some "job", score := some 99, title := some "j", url := none,
    author := none, time := none }

/-- Environment serving the job item. -/
def exEnvJob : Env := { exEnvNone with detail := fun _ => some exItemJob }

/-- A story item whose detail payload lacks a score field. -/
def exItemNoScore : ItemDict :=
  { itemType := some "story", score := none, title := some "t", url := none,
    author := none, time := none }

/-- Environment serving the score-less item. -/
def exEnvNoScore : Env := { exEnvNone with detail := fun _ => some exItemNoScore }

/-! ## Helper lemmas -/

lemma stripCore_idem (p : Char → Bool) (l : List Char) :
    List.dropWhile p (List.rdropWhile p (List.dropWhile p l)) =
      List.rdropWhile p (List.dropWhile p l) := by
  apply List.dropWhile_eq_self_iff.mpr
  intro hl
  obtain ⟨t, ht⟩ := List.rdropWhile_prefix p (List.dropWhile p l)
  have hlen : 0 < (List.dropWhile p l).length := by
    rw [← ht, List.length_append]
    omega
  have h0 := List.dropWhile_get_zero_not p l hlen
  have hq : (List.dropWhile p l).get? 0 =
      (List.rdropWhile p (List.dropWhile p l)).get? 0 := by
    conv_lhs => rw [← ht]
    exact List.get?_append hl
  rw [List.get?_eq_get hlen, List.get?_eq_get hl] at hq
  have hget := Option.some.inj hq
  rwa [hget] at h0

lemma pyStrip_idem (s : String) : pyStrip (pyStrip s) = pyStrip s := by
  show String.mk (List.rdropWhile isPyWs ((pyStrip s).data.dropWhile isPyWs)) = pyStrip s
  have h1 : (pyStrip s).data = List.rdropWhile isPyWs (s.data.dropWhile isPyWs) := rfl
  rw [h1, stripCore_idem, List.rdropWhile_idempotent]
  rfl

lemma hasChar_cons (c : Char) (l : List Char) (a : Char) :
    hasChar (c :: l) a = (c == a || hasChar l a) := rfl

lemma hasChar_append (l₁ l₂ : List Char) (a : Char) :
    hasChar (l₁ ++ l₂) a = (hasChar l₁ a || hasChar l₂ a) := by
  induction l₁ with
  | nil => simp [hasChar]
  | cons c t ih => simp [hasChar, ih, Bool.or_assoc]

lemma hasChar_eq_false_iff (l : List Char) (a : Char) :
    hasChar l a = false ↔ ∀ c ∈ l, ¬(c = a) := by
  induction l with
  | nil => simp [hasChar]
  | cons c t ih => simp [hasChar, ih]

lemma exists_last_occurrence (l : List Char) (a : Char) (h : hasChar l a = true) :
    ∃ mid suf, l = mid ++ a :: suf ∧ hasChar suf a = false := by
  induction l with
  | nil => simp [hasChar] at h
  | cons c t ih =>
    by_cases ht : hasChar t a = true
    · obtain ⟨mid, suf, h1, h2⟩ := ih ht
      exact ⟨c :: mid, suf, by rw [h1]; rfl, h2⟩
    · have hfalse : hasChar t a = false := by
        cases hb : hasChar t a
        · rfl
        · exact absurd hb ht
      have hc : c = a := by
        rw [hasChar_cons, hfalse, Bool.or_false] at h
        exact eq_of_beq h
      exact ⟨[], t, by rw [hc]; rfl, hfalse⟩

lemma dropWhile_append_all (p : Char → Bool) (l₁ l₂ : List Char)
    (h : ∀ c ∈ l₁, p c = true) : List.dropWhile p (l₁ ++ l₂) = List.dropWhile p l₂ := by
  induction l₁ with
  | nil => rfl
  | cons c t ih =>
    have hc : p c = true := h c (List.mem_cons_self c t)
    simp only [List.cons_append, List.dropWhile_cons, hc, if_true]
    exact ih (fun x hx => h x (List.mem_cons_of_mem c hx))

lemma upToLastClose_append (mid suf : List Char) (h : hasChar suf '\x7d' = false) :
    upToLastClose (mid ++ '\x7d' :: suf) = mid ++ ['\x7d'] := by
  unfold upToLastClose
  rw [List.reverse_append, List.reverse_cons, List.append_assoc]
  have hall : ∀ c ∈ suf.reverse, (fun c => c != '\x7d') c = true := by
    intro c hc
    have := (hasChar_eq_false_iff suf '\x7d').mp h c (List.mem_reverse.mp hc)
    simp [bne_iff_ne, this]
  rw [dropWhile_append_all _ _ _ hall]
  simp [List.dropWhile_cons]

lemma braceMatch_none_of_no_close (l : List Char) (h : hasChar l '\x7d' = false) :
    braceMatch l = none := by
  induction l with
  | nil => rfl
  | cons c t ih =>
    rw [hasChar_cons, Bool.or_eq_false_iff] at h
    unfold braceMatch
    rw [if_neg (by simp [h.2])]
    exact ih h.2

lemma braceMatch_iff (ds m : List Char) :
    braceMatch ds = some m ↔
      ∃ pre mid suf, ds = pre ++ '\x7b' :: (mid ++ '\x7d' :: suf) ∧
        hasChar pre '\x7b' = false ∧ hasChar suf '\x7d' = false ∧
        m = '\x7b' :: (mid ++ ['\x7d']) := by
  induction ds generalizing m with
  | nil =>
    constructor
    · intro h
      exact absurd h (by simp [braceMatch])
    · rintro ⟨pre, mid, suf, h, -, -, -⟩
      exact absurd h (by simp)
  | cons c rest ih =>
    by_cases h1 : c = '\x7b'
    · by_cases h2 : hasChar rest '\x7d' = true
      · obtain ⟨mid0, suf0, hrest, hsuf0⟩ := exists_last_occurrence rest '\x7d' h2
        have hbm : braceMatch (c :: rest) = some ('\x7b' :: upToLastClose rest) := by
          unfold braceMatch
          rw [if_pos ⟨h1, h2⟩]
        have hup : upToLastClose rest = mid0 ++ ['\x7d'] := by
          rw [hrest]
          exact upToLastClose_append mid0 suf0 hsuf0
        rw [hbm, hup, Option.some_inj]
        constructor
        · intro hm
          exact ⟨[], mid0, suf0, by rw [h1, hrest]; rfl, rfl, hsuf0, by rw [hm]⟩
        · rintro ⟨pre, mid, suf, hds, hpre, hsuf, hm⟩
          cases pre with
          | cons p pre2 =>
            have hcp : c = p := by
              have := congrArg List.head? hds
              simpa using this
            rw [hasChar_cons, Bool.or_eq_false_iff] at hpre
            have : p = '\x7b' := by rw [← hcp, h1]
            simp [this] at hpre
          | nil =>
            simp only [List.nil_append, List.cons.injEq] at hds
            have hrest2 : rest = mid ++ '\x7d' :: suf := hds.2
            have : upToLastClose rest = mid ++ ['\x7d'] := by
              rw [hrest2]
              exact upToLastClose_append mid suf hsuf
            rw [hm, ← this, hup]
      · have hr : hasChar rest '\x7d' = false := by
          cases hb : hasChar rest '\x7d'
          · rfl
          · exact absurd hb h2
        have hbm : braceMatch (c :: rest) = braceMatch rest := by
          simp only [braceMatch]
          rw [if_neg (by simp [hr])]
        rw [hbm, braceMatch_none_of_no_close rest hr]
        constructor
        · intro h
          exact absurd h (by simp)
        · rintro ⟨pre, mid, suf, hds, hpre, hsuf, hm⟩
          exfalso
          cases pre with
          | nil =>
            simp only [List.nil_append, List.cons.injEq] at hds
            rw [hds.2, hasChar_append, hasChar_cons] at hr
            simp at hr
          | cons p pre2 =>
            simp only [List.cons_append, List.cons.injEq] at hds
            rw [hds.2, hasChar_append, hasChar_cons, hasChar_append, hasChar_cons] at hr
            simp at hr
    · have hbm : braceMatch (c :: rest) = braceMatch rest := by
        simp only [braceMatch]
        rw [if_neg (by simp [h1])]
      rw [hbm, ih]
      constructor
      · rintro ⟨pre, mid, suf, hds, hpre, hsuf, hm⟩
        refine ⟨c :: pre, mid, suf, by rw [hds]; rfl, ?_, hsuf, hm⟩
        rw [hasChar_cons, Bool.or_eq_false_iff]
        exact ⟨by simp [h1], hpre⟩
      · rintro ⟨pre, mid, suf, hds, hpre, hsuf, hm⟩
        cases pre with
        | nil =>
          simp only [List.nil_append, List.cons.injEq] at hds
          exact absurd hds.1 h1
        | cons p pre2 =>
          simp only [List.cons_append, List.cons.injEq] at hds
          rw [hasChar_cons, Bool.or_eq_false_iff] at hpre
          exact ⟨pre2, mid, suf, hds.2, hpre.2, hsuf, hm⟩

lemma classify_shape (o : Option String) :
    ∃ d, classify_and_summarize o = some d ∧
      d.map Prod.fst =
        ["is_related", "category", "subcategory", "summary", "tags", "relevance"] := by
  cases o with
  | none => exact ⟨defaultVerdict, rfl, rfl⟩
  | some raw =>
    cases h : json_loads (classifyContent raw) with
    | none => exact ⟨defaultVerdict, by simp [classify_and_summarize, h], rfl⟩
    | some v =>
      cases v with
      | obj kvs =>
        cases h2 : tagsNormalize kvs with
        | none => exact ⟨defaultVerdict, by simp [classify_and_summarize, h, h2], rfl⟩
        | some tv =>
          exact ⟨buildVerdict kvs tv, by simp [classify_and_summarize, h, h2], rfl⟩
      | null => exact ⟨defaultVerdict, by simp [classify_and_summarize, h], rfl⟩
      | bool b => exact ⟨defaultVerdict, by simp [classify_and_summarize, h], rfl⟩
      | num n => exact ⟨defaultVerdict, by simp [classify_and_summarize, h], rfl⟩
      | str st => exact ⟨defaultVerdict, by simp [classify_and_summarize, h], rfl⟩
      | arr xs => exact ⟨defaultVerdict, by simp [classify_and_summarize, h], rfl⟩

/-! ## Claim theorems -/

/-- C9: classify_and_summarize is total at its interface: for every title, url
and text (folded into the prompt, which only influences the upstream outcome o),
and for every outcome of the upstream call, including a raised exception
(o = none) and an undecodable response, it returns a dictionary containing
exactly the six keys is_related, category, subcategory, summary, tags,
relevance, in that order, and never raises to its caller (it is a total
function into defined dictionaries). -/
theorem c9_classifier_total (o : Option String) :
    ∃ d, classify_and_summarize o = some d ∧
      d.map Prod.fst =
        ["is_related", "category", "subcategory", "summary", "tags", "relevance"] :=
  classify_shape o

/-- C1 counterexample: on the upstream response text made of the JSON object
that holds only a summary key (so all other required keys are missing), the
classifier does not return absent: it returns a partially-populated verdict
whose missing keys are filled with defaults, contradicting the claim that it
returns absent and never a default-filled partial verdict. -/
theorem c1_counterexample :
    json_loads (classifyContent "\x7b\"summary\": \"hi\"\x7d") =
        some (Json.obj [("summary", Json.str "hi")]) ∧
      classify_and_summarize (some "\x7b\"summary\": \"hi\"\x7d") ≠ none ∧
      classify_and_summarize (some "\x7b\"summary\": \"hi\"\x7d") =
        some [("is_related", Json.bool false), ("category", Json.null),
              ("subcategory", Json.null), ("summary", Json.str "hi"),
              ("tags", Json.str ""), ("relevance", Json.num "0.0")] := by
  refine ⟨rfl, ?_, rfl⟩
  have h2 : classify_and_summarize (some "\x7b\"summary\": \"hi\"\x7d") =
      some [("is_related", Json.bool false), ("category", Json.null),
            ("subcategory", Json.null), ("summary", Json.str "hi"),
            ("tags", Json.str ""), ("relevance", Json.num "0.0")] := rfl
  rw [h2]
  exact Option.some_ne_none _

/-- C1 (amended): the classifier never returns absent. On an upstream call
failure or a response that fails to decode as JSON it returns the fully-default
verdict (is_related false, category and subcategory null, empty summary and
tags, relevance 0.0); when the response decodes to an object missing a required
key, that key is filled with its default (shown for is_related), producing a
default-filled verdict rather than absent. -/
theorem c1_amended :
    (∀ o, classify_and_summarize o ≠ none) ∧
    classify_and_summarize none = some defaultVerdict ∧
    (∀ raw, json_loads (classifyContent raw) = none →
      classify_and_summarize (some raw) = some defaultVerdict) ∧
    (∀ raw kvs, json_loads (classifyContent raw) = some (Json.obj kvs) →
      jget kvs "is_related" = none →
      ∃ d, classify_and_summarize (some raw) = some d ∧
        jget d "is_related" = some (Json.bool false)) := by
  refine ⟨?_, rfl, ?_, ?_⟩
  · intro o
    obtain ⟨d, hd, -⟩ := classify_shape o
    rw [hd]
    exact Option.some_ne_none _
  · intro raw h
    simp [classify_and_summarize, h]
  · intro raw kvs h hmiss
    cases h2 : tagsNormalize kvs with
    | none =>
      refine ⟨defaultVerdict, by simp [classify_and_summarize, h, h2], rfl⟩
    | some tv =>
      refine ⟨buildVerdict kvs tv, by simp [classify_and_summarize, h, h2], ?_⟩
      rw [show jget (buildVerdict kvs tv) "is_related" =
            some ((jget kvs "is_related").getD (Json.bool false)) from rfl, hmiss]
      rfl

/-- C1 witness: the amended theorem applied at the undecodable response text
"not json", whose decode-failure hypothesis holds by evaluation. -/
theorem c1_amended_witness :
    classify_and_summarize (some "not json") = some defaultVerdict :=
  c1_amended.2.2.1 "not json" rfl

/-- C2 counterexample: the response made of two well-formed JSON objects
separated by a space contains a well-formed JSON object embedded in
surrounding text, yet the parser does not extract the first well-formed
object: the greedy brace regex keeps the whole span from the first opening to
the last closing brace, which then fails to decode. -/
theorem c2_counterexample :
    specFirstJsonObject "\x7b\"a\":1\x7d \x7b\"b\":2\x7d" = some "\x7b\"a\":1\x7d" ∧
    classifyContent "\x7b\"a\":1\x7d \x7b\"b\":2\x7d" = "\x7b\"a\":1\x7d \x7b\"b\":2\x7d" ∧
    classifyContent "\x7b\"a\":1\x7d \x7b\"b\":2\x7d" ≠ "\x7b\"a\":1\x7d" ∧
    json_loads (classifyContent "\x7b\"a\":1\x7d \x7b\"b\":2\x7d") = none := by
  refine ⟨rfl, rfl, by decide, rfl⟩

/-- C2 (amended): the response parser extracts the span of the stripped
response running from its first opening brace to its last closing brace: the
brace regex matches exactly when the text splits as pre + open + mid + close
+ suf with no opening brace in pre and no closing brace in suf, and the match
is then open + mid + close; classify_and_summarize decodes that span. It
coincides with the first well-formed JSON object only when no closing brace
follows that object. -/
theorem c2_amended :
    (∀ ds m, braceMatch ds = some m ↔
      ∃ pre mid suf, ds = pre ++ '\x7b' :: (mid ++ '\x7d' :: suf) ∧
        hasChar pre '\x7b' = false ∧ hasChar suf '\x7d' = false ∧
        m = '\x7b' :: (mid ++ ['\x7d'])) ∧
    (∀ raw m, braceMatch (pyStrip raw).data = some m →
      classifyContent raw = String.mk m) := by
  refine ⟨braceMatch_iff, ?_⟩
  intro raw m h
  simp [classifyContent, h]

/-- C2 witness: the amended characterization applied to the concrete text
x-open-y-close-z, discharging the match hypothesis by evaluation. -/
theorem c2_amended_witness :
    ∃ pre mid suf,
      "x\x7by\x7dz".data = pre ++ '\x7b' :: (mid ++ '\x7d' :: suf) ∧
        hasChar pre '\x7b' = false ∧ hasChar suf '\x7d' = false ∧
        ['\x7b', 'y', '\x7d'] = '\x7b' :: (mid ++ ['\x7d']) :=
  (c2_amended.1 "x\x7by\x7dz".data ['\x7b', 'y', '\x7d']).mp rfl

lemma npAccept_some (np : Bool) (p : Except Unit String) (t : String)
    (h : npAccept np p = some t) : 100 < (pyStrip t).length := by
  cases np with
  | false => simp [npAccept] at h
  | true =>
    cases p with
    | error e => simp [npAccept] at h
    | ok t2 =>
      simp only [npAccept, if_true] at h
      split at h
      · rename_i hc
        cases h
        exact hc.2
      · exact absurd h (by simp)

lemma bsFallback_some (f : Except Unit (List String)) (r : String)
    (h : bsFallback f = some r) : 100 < (pyStrip r).length := by
  cases f with
  | error e => simp [bsFallback] at h
  | ok ps =>
    simp only [bsFallback] at h
    split at h
    · rename_i hc
      cases h
      rw [pyStrip_idem]
      exact hc.2
    · exact absurd h (by simp)

/-- C3: for every URL and every outcome of the two extraction strategies,
fetch_article_text (a) returns a value only when its trimmed length exceeds
100 characters, (b) falls through to the raw-HTML fallback whenever the
primary newspaper3k strategy does not produce an accepted result, (c) rejects
a primary result of at most 100 trimmed characters, (d) rejects a fallback
result of at most 100 trimmed characters and (e) a raised fallback, and (f)
returns absent when both strategies fail; it is a total function, so it never
raises to the caller. -/
theorem c3_extraction (url : String) (np : Bool) (p : Except Unit String)
    (f : Except Unit (List String)) :
    (∀ r, fetch_article_text url np p f = some r → 100 < (pyStrip r).length) ∧
    (url ≠ "" → npAccept np p = none → fetch_article_text url np p f = bsFallback f) ∧
    (∀ t, (pyStrip t).length ≤ 100 → npAccept np (Except.ok t) = none) ∧
    (∀ ps, (pyStrip (String.intercalate "\n" ps)).length ≤ 100 →
      bsFallback (Except.ok ps) = none) ∧
    bsFallback (Except.error ()) = none ∧
    (url ≠ "" → npAccept np p = none → bsFallback f = none →
      fetch_article_text url np p f = none) := by
  refine ⟨?_, ?_, ?_, ?_, rfl, ?_⟩
  · intro r h
    unfold fetch_article_text at h
    split at h
    · exact absurd h (by simp)
    · cases hnp : npAccept np p with
      | some t =>
        rw [hnp] at h
        cases h
        exact npAccept_some np p r hnp
      | none =>
        rw [hnp] at h
        exact bsFallback_some f r h
  · intro hu hnp
    unfold fetch_article_text
    rw [if_neg hu, hnp]
  · intro t ht
    cases np with
    | false => rfl
    | true =>
      show (if t ≠ "" ∧ 100 < (pyStrip t).length then some t else none) = none
      rw [if_neg]
      rintro ⟨-, hlt⟩
      omega
  · intro ps hps
    show (if String.intercalate "\n" ps ≠ "" ∧
        100 < (pyStrip (String.intercalate "\n" ps)).length then
        some (pyStrip (String.intercalate "\n" ps)) else none) = none
    rw [if_neg]
    rintro ⟨-, hlt⟩
    omega
  · intro hu hnp hbs
    unfold fetch_article_text
    rw [if_neg hu, hnp]
    exact hbs

/-- C3 witness: the theorem applied at a concrete URL where newspaper3k
returns a short text (5 characters, below the floor) and the fallback request
raises; both strategies fail, so the result is absent. -/
theorem c3_extraction_witness :
    fetch_article_text "http://a" true (Except.ok "short") (Except.error ()) = none :=
  (c3_extraction "http://a" true (Except.ok "short") (Except.error ())).2.2.2.2.2
    (by decide) rfl rfl

/-- C5 counterexample: with the configured keyword "b c", an item titled "ab"
with URL "cd" and score 20 is not skipped by the code (the keyword matches the
space-joined concatenation "ab cd") although neither the title nor the URL
contains the keyword, so the claimed skip condition disagrees with the code. -/
theorem c5_counterexample :
    keywordSkips ["b c"] "ab" (some "cd") 20 = false ∧
    specKeywordSkips ["b c"] "ab" (some "cd") 20 = true ∧
    keywordSkips ["b c"] "ab" (some "cd") 20 ≠
      specKeywordSkips ["b c"] "ab" (some "cd") 20 := by
  refine ⟨rfl, rfl, by decide⟩

/-- C5 (amended): the keyword pre-filter skips a candidate exactly when the
configured keyword set is non-empty, the score is below 50, and the lowercased
space-joined concatenation of title and URL contains no configured keyword
(keywords are stored lowercased by the configuration parser); an item with
score at least 50 is never skipped by the keyword filter, and with an empty
keyword set no item is skipped by it. -/
theorem c5_amended (kws : List String) (title : String) (url : Option String)
    (score : Int) :
    (keywordSkips kws title url score = true ↔
      (kws ≠ [] ∧ score < 50 ∧
        ∀ kw ∈ kws,
          containsSub (strLower (title ++ " " ++ url.getD "")) kw = false)) ∧
    (50 ≤ score → keywordSkips kws title url score = false) ∧
    (kws = [] → keywordSkips kws title url score = false) := by
  have key : keywordSkips kws title url score = true ↔
      (kws ≠ [] ∧ score < 50 ∧
        ∀ kw ∈ kws,
          containsSub (strLower (title ++ " " ++ url.getD "")) kw = false) := by
    unfold keywordSkips matches_keywords
    by_cases he : kws = []
    · subst he
      simp
    · have he2 : kws.isEmpty = false := by simp [List.isEmpty_iff, he]
      simp [he2, he, Bool.and_eq_true, Bool.not_eq_true', List.any_eq_false,
        decide_eq_true_eq]
      tauto
  refine ⟨key, ?_, ?_⟩
  · intro h50
    cases hb : keywordSkips kws title url score with
    | false => rfl
    | true =>
      have := (key.mp hb).2.1
      omega
  · intro he
    subst he
    rfl

/-- C5 witness: the amended theorem applied at keywords gpt, title without a
match and score 60: the score at least 50 clause yields no skip. -/
theorem c5_amended_witness :
    keywordSkips ["gpt"] "New database engine released" none 60 = false :=
  (c5_amended ["gpt"] "New database engine released" none 60).2.1 (by omega)

lemma stepStory_past_filters (cfg : RunCfg) (env : Env) (store : List StoredItem)
    (id : Nat) (item : ItemDict) (hd : env.detail id = some item)
    (h1 : ¬item.itemType ≠ some "story")
    (h2 : ¬item.score.getD 0 < cfg.minScore)
    (h3 : ¬env.existsRaises id = true)
    (h4 : ¬storeHas store id = true)
    (h5 : ¬(matches_keywords cfg.keywords (item.title.getD "") item.url = false ∧
      item.score.getD 0 < 50)) :
    stepStory cfg env store id =
      match classify_and_summarize (env.classifyResp id) with
      | none => (store, 0, 0)
      | some verdict =>
        if verdict.isEmpty then (store, 0, 0)
        else if jtruthy ((jget verdict "is_related").getD (Json.bool false)) = false then
          (store, 0, 0)
        else if env.insertRaises id then (store, 0, 1)
        else
          (store ++ [mkStored id item (truncText (articleFor env item))
            (item.score.getD 0) verdict], 1, 1) := by
  simp only [stepStory, hd]
  rw [if_neg h1, if_neg h2, if_neg h3, if_neg h4, if_neg h5]

lemma stepStory_skip_of_stored (cfg : RunCfg) (env : Env) (store : List StoredItem)
    (id : Nat) (h : storeHas store id = true) :
    stepStory cfg env store id = (store, 0, 0) := by
  cases hd : env.detail id with
  | none => simp [stepStory, hd]
  | some item =>
    simp only [stepStory, hd]
    by_cases h1 : item.itemType ≠ some "story"
    · rw [if_pos h1]
    · rw [if_neg h1]
      by_cases h2 : item.score.getD 0 < cfg.minScore
      · rw [if_pos h2]
      · rw [if_neg h2]
        by_cases h3 : env.existsRaises id = true
        · rw [if_pos h3]
        · rw [if_neg h3, if_pos h]

lemma stepStory_skip_early (cfg : RunCfg) (env : Env) (store : List StoredItem)
    (id : Nat) (item : ItemDict) (hd : env.detail id = some item)
    (h : item.itemType ≠ some "story" ∨ item.score.getD 0 < cfg.minScore) :
    stepStory cfg env store id = (store, 0, 0) := by
  simp only [stepStory, hd]
  by_cases h1 : item.itemType ≠ some "story"
  · rw [if_pos h1]
  · rcases h with h | h
    · exact absurd h h1
    · rw [if_neg h1, if_pos h]

lemma stepStory_main (cfg : RunCfg) (env : Env) (store : List StoredItem) (id : Nat) :
    stepStory cfg env store id = (store, 0, 0) ∨
    (env.insertRaises id = true ∧ stepStory cfg env store id = (store, 0, 1)) ∨
    (env.insertRaises id = false ∧ ∃ item verdict,
      env.detail id = some item ∧
      stepStory cfg env store id =
        (store ++ [mkStored id item (truncText (articleFor env item))
          (item.score.getD 0) verdict], 1, 1)) := by
  cases hd : env.detail id with
  | none => left; simp [stepStory, hd]
  | some item =>
    by_cases h1 : item.itemType ≠ some "story"
    · left; simp only [stepStory, hd]; rw [if_pos h1]
    · by_cases h2 : item.score.getD 0 < cfg.minScore
      · left; simp only [stepStory, hd]; rw [if_neg h1, if_pos h2]
      · by_cases h3 : env.existsRaises id = true
        · left; simp only [stepStory, hd]; rw [if_neg h1, if_neg h2, if_pos h3]
        · by_cases h4 : storeHas store id = true
          · left; exact stepStory_skip_of_stored cfg env store id h4
          · by_cases h5 : matches_keywords cfg.keywords (item.title.getD "") item.url = false ∧
                item.score.getD 0 < 50
            · left; simp only [stepStory, hd]
              rw [if_neg h1, if_neg h2, if_neg h3, if_neg h4, if_pos h5]
            · have hp := stepStory_past_filters cfg env store id item hd h1 h2 h3 h4 h5
              cases hcl : classify_and_summarize (env.classifyResp id) with
              | none => left; rw [hp, hcl]
              | some verdict =>
                rw [hp]
                simp only [hcl]
                by_cases h6 : verdict.isEmpty = true
                · left; rw [if_pos h6]
                · rw [if_neg h6]
                  by_cases h7 : jtruthy ((jget verdict "is_related").getD (Json.bool false)) = false
                  · left; rw [if_pos h7]
                  · rw [if_neg h7]
                    by_cases h8 : env.insertRaises id = true
                    · right; left; exact ⟨h8, by rw [if_pos h8]⟩
                    · right; right
                      have h8f : env.insertRaises id = false := by
                        revert h8; cases env.insertRaises id <;> simp
                      exact ⟨h8f, item, verdict, rfl, by rw [if_neg h8]⟩

lemma stepStory_skip_of_classify_fail (cfg : RunCfg) (env : Env)
    (store : List StoredItem) (id : Nat) (hc : env.classifyResp id = none) :
    stepStory cfg env store id = (store, 0, 0) := by
  cases hd : env.detail id with
  | none => simp [stepStory, hd]
  | some item =>
    by_cases h1 : item.itemType ≠ some "story"
    · simp only [stepStory, hd]; rw [if_pos h1]
    · by_cases h2 : item.score.getD 0 < cfg.minScore
      · simp only [stepStory, hd]; rw [if_neg h1, if_pos h2]
      · by_cases h3 : env.existsRaises id = true
        · simp only [stepStory, hd]; rw [if_neg h1, if_neg h2, if_pos h3]
        · by_cases h4 : storeHas store id = true
          · exact stepStory_skip_of_stored cfg env store id h4
          · by_cases h5 : matches_keywords cfg.keywords (item.title.getD "") item.url = false ∧
                item.score.getD 0 < 50
            · simp only [stepStory, hd]
              rw [if_neg h1, if_neg h2, if_neg h3, if_neg h4, if_pos h5]
            · rw [stepStory_past_filters cfg env store id item hd h1 h2 h3 h4 h5, hc]
              rfl

lemma stepStory_skip_of_exists_raises (cfg : RunCfg) (env : Env)
    (store : List StoredItem) (id : Nat) (h : env.existsRaises id = true) :
    stepStory cfg env store id = (store, 0, 0) := by
  cases hd : env.detail id with
  | none => simp [stepStory, hd]
  | some item =>
    simp only [stepStory, hd]
    by_cases h1 : item.itemType ≠ some "story"
    · rw [if_pos h1]
    · rw [if_neg h1]
      by_cases h2 : item.score.getD 0 < cfg.minScore
      · rw [if_pos h2]
      · rw [if_neg h2, if_pos h]

lemma truncText_le (a : Option String) (t : String) (h : truncText a = some t) :
    t.length ≤ 20000 := by
  cases a with
  | none => simp [truncText] at h
  | some u =>
    simp only [truncText] at h
    split at h
    · cases h
      show (u.data.take 20000).length ≤ 20000
      rw [List.length_take]
      exact Nat.min_le_left _ _
    · cases h
      omega

lemma stepStory_mem (cfg : RunCfg) (env : Env) (store : List StoredItem) (id : Nat)
    (it : StoredItem) (h : it ∈ (stepStory cfg env store id).1) :
    it ∈ store ∨ ∀ t, it.text = some t → t.length ≤ 20000 := by
  rcases stepStory_main cfg env store id with hm | ⟨-, hm⟩ | ⟨-, item, verdict, -, hm⟩
  · rw [hm] at h
    exact Or.inl h
  · rw [hm] at h
    exact Or.inl h
  · rw [hm] at h
    rcases List.mem_append.mp h with h2 | h2
    · exact Or.inl h2
    · right
      intro t ht
      have heq : it = mkStored id item (truncText (articleFor env item))
          (item.score.getD 0) verdict := List.mem_singleton.mp h2
      rw [heq] at ht
      exact truncText_le _ t ht

/-- C4: the pipeline is idempotent over the store: for every identifier already
present in the Store the per-item step leaves the store unchanged and saves
nothing — for every environment, so the result is independent of the extraction
and classification oracles (those stages are never consulted) — and a run over
a feed all of whose identifiers are already stored returns the store unchanged
with saved count 0, which is the second run against an unchanged feed and an
unchanged store. -/
theorem c4_idempotency (cfg : RunCfg) (env : Env) :
    (∀ store id, storeHas store id = true → stepStory cfg env store id = (store, 0, 0)) ∧
    (∀ ids store, (∀ id ∈ ids, storeHas store id = true) →
      runLoop cfg env ids store = (store, 0, 0)) := by
  refine ⟨stepStory_skip_of_stored cfg env, ?_⟩
  intro ids
  induction ids with
  | nil => intro store h; rfl
  | cons id rest ih =>
    intro store h
    have h1 := stepStory_skip_of_stored cfg env store id (h id (List.mem_cons_self id rest))
    have h2 := ih store (fun i hi => h i (List.mem_cons_of_mem id hi))
    simp [runLoop, h1, h2]

/-- C4 witness: the run-level part applied to the feed 1, 1 against a store
already holding identifier 1: nothing is saved and the store is unchanged. -/
theorem c4_idempotency_witness :
    runLoop exCfg exEnvNone [1, 1] [exStoredPlain] = ([exStoredPlain], 0, 0) :=
  (c4_idempotency exCfg exEnvNone).2 [1, 1] [exStoredPlain] (by decide)

/-- C6: text longer than 20000 characters is truncated to its first 20000
characters before the StoredItem is constructed, and consequently every item
the run loop adds to the store has body text of length at most 20000 (items
already in the store are returned as they were). -/
theorem c6_text_cap (cfg : RunCfg) (env : Env) :
    (∀ t, 20000 < t.length → truncText (some t) = some (pyTake t 20000)) ∧
    (∀ ids store it, it ∈ (runLoop cfg env ids store).1 →
      it ∈ store ∨ ∀ t, it.text = some t → t.length ≤ 20000) := by
  constructor
  · intro t ht
    simp [truncText, ht]
  · intro ids
    induction ids with
    | nil =>
      intro store it h
      exact Or.inl h
    | cons id rest ih =>
      intro store it h
      simp only [runLoop] at h
      rcases ih (stepStory cfg env store id).1 it h with h2 | h2
      · exact stepStory_mem cfg env store id it h2
      · exact Or.inr h2

/-- C6 witness: the run-level part applied to the empty feed and a one-row
store; the row is returned as a pre-existing store member. -/
theorem c6_text_cap_witness :
    exStoredPlain ∈ ([exStoredPlain] : List StoredItem) ∨
      ∀ t, exStoredPlain.text = some t → t.length ≤ 20000 :=
  (c6_text_cap exCfg exEnvNone).2 [] [exStoredPlain] exStoredPlain
    (List.mem_cons_self _ _)

/-- C7: an item whose kind is not story, or whose score (absent defaulting to
0) is below the configured minimum, is skipped before anything else happens:
the step leaves the store unchanged and saves nothing, for every environment,
hence independently of the extraction and classification oracles. -/
theorem c7_kind_score_skip (cfg : RunCfg) (env : Env) (store : List StoredItem)
    (id : Nat) (item : ItemDict) (hd : env.detail id = some item)
    (h : item.itemType ≠ some "story" ∨ item.score.getD 0 < cfg.minScore) :
    stepStory cfg env store id = (store, 0, 0) :=
  stepStory_skip_early cfg env store id item hd h

/-- C7 witness: the theorem applied to a job-typed item of score 99. -/
theorem c7_kind_score_skip_witness : stepStory exCfg exEnvJob [] 2 = ([], 0, 0) :=
  c7_kind_score_skip exCfg exEnvJob [] 2 exItemJob rfl (Or.inl (by decide))

/-- C10: an item whose detail payload lacks a score field is treated as having
score 0 by the orchestrator, so it is skipped by the minimum-score filter
whenever the configured minimum score is positive. -/
theorem c10_missing_score_skip (cfg : RunCfg) (env : Env) (store : List StoredItem)
    (id : Nat) (item : ItemDict) (hd : env.detail id = some item)
    (hs : item.score = none) (hm : 0 < cfg.minScore) :
    stepStory cfg env store id = (store, 0, 0) := by
  apply stepStory_skip_early cfg env store id item hd
  right
  rw [hs]
  simpa using hm

/-- C10 witness: the theorem applied to a score-less story item under the
default configuration (minimum score 10). -/
theorem c10_missing_score_skip_witness :
    stepStory exCfg exEnvNoScore [] 3 = ([], 0, 0) :=
  c10_missing_score_skip exCfg exEnvNoScore [] 3 exItemNoScore rfl rfl (by decide)

/-- C8 counterexample: an identifier whose content extraction fails on both
strategies is not skipped: with a successful is_related classification the
item is stored (with absent text) and counted as saved, so an extraction
failure is not treated as a skip of the identifier. -/
theorem c8_counterexample :
    fetch_article_text "http://a" true (Except.error ()) (Except.error ()) = none ∧
    stepStory exCfg exEnv8 [] 1 = ([exStored8], 1, 1) :=
  ⟨rfl, rfl⟩

/-- C8 (amended): per-identifier failures are isolated: a missing or failed
item detail, a raised existence check, and a raised insert each leave the
store unchanged with nothing saved (the insert failure still counts the item
as processed); a failed upstream classification call leads to a skip through
the not-related default verdict; extraction failure, by contrast, is non-fatal
and the item may still be stored (see the counterexample); and a step that
skips contributes nothing: the loop continues with the remaining identifiers
exactly as if the failing identifier were absent — the run is never aborted. -/
theorem c8_amended (cfg : RunCfg) (env : Env) :
    (∀ store id, env.detail id = none → stepStory cfg env store id = (store, 0, 0)) ∧
    (∀ store id, env.existsRaises id = true → stepStory cfg env store id = (store, 0, 0)) ∧
    (∀ store id, env.insertRaises id = true →
      (stepStory cfg env store id).1 = store ∧ (stepStory cfg env store id).2.1 = 0) ∧
    (∀ store id, env.classifyResp id = none → stepStory cfg env store id = (store, 0, 0)) ∧
    (∀ store id rest, stepStory cfg env store id = (store, 0, 0) →
      runLoop cfg env (id :: rest) store = runLoop cfg env rest store) := by
  refine ⟨?_, ?_, ?_, ?_, ?_⟩
  · intro store id hd
    simp [stepStory, hd]
  · intro store id h
    exact stepStory_skip_of_exists_raises cfg env store id h
  · intro store id h
    rcases stepStory_main cfg env store id with hm | ⟨-, hm⟩ | ⟨hf, -, -, -, -⟩
    · rw [hm]
      exact ⟨rfl, rfl⟩
    · rw [hm]
      exact ⟨rfl, rfl⟩
    · rw [h] at hf
      exact absurd hf (by simp)
  · intro store id hc
    exact stepStory_skip_of_classify_fail cfg env store id hc
  · intro store id rest h
    simp [runLoop, h]

/-- C8 witness: the amended theorem applied to an identifier whose detail
fetch fails; the step is a no-op skip. -/
theorem c8_amended_witness : stepStory exCfg exEnvNone [] 7 = ([], 0, 0) :=
  (c8_amended exCfg exEnvNone).1 [] 7 rfl

end HnScraper
